import Mathlib

/-!
Shallow embedding of the core trade dispatch engine (MT5 deal processor demo):
data model (`TradeStatus`, `TradeRequest`, `TradeResult`, `SymbolInfo`),
the pre-execution `Validator`, the retry executor of `DealProcessor`,
the `ThreadSafeQueue`, the `ResultTracker`, and the mock broker
`MockMTAPI.executeTrade`.

Modelling conventions:
* C++ `double` fields are modelled as `Rat` (no claim depends on binary
  floating-point rounding; comparisons on non-NaN doubles order like rationals).
* Wall-clock `timestamp` fields are omitted: no verified property mentions them.
* `std::to_string` on numbers is rendered with Lean's `toString`; only the
  `Nat` case (retry counts) is compared literally by a claim.
* Nondeterminism (the mock's RNG) and mutable state are passed explicitly:
  the broker seen by the retry loop is a function from the attempt index to
  the `TradeResult` that attempt returns.
-/

/-- Status enumeration of `TradeResult.h`. -/
inductive TradeStatus where
  | SUCCESS
  | REJECTED
  | INVALID_PARAMS
  | CONNECTION_ERROR
  | MARGIN_ERROR
  | DUPLICATE
  | RETRY_EXHAUSTED
deriving DecidableEq, Repr

/-- Trade direction of `TradeRequest.h`. -/
inductive TradeType where
  | BUY
  | SELL
deriving DecidableEq, Repr

/-- The request record of `TradeRequest.h` (timestamp omitted). -/
structure TradeRequest where
  clientId : String
  requestId : String
  tradeType : TradeType
  symbol : String
  volume : Rat
  stopLoss : Option Rat
  takeProfit : Option Rat
  isTestBadRequest : Bool
deriving DecidableEq, Repr

/-- The result record of `TradeResult.h` (timestamp omitted). -/
structure TradeResult where
  requestId : String
  clientId : String
  status : TradeStatus
  mtTicketId : String
  executionPrice : Rat
  errorMessage : String
  retryCount : Nat
deriving DecidableEq, Repr

/-- Source `TradeResult::isSuccess`. -/
def TradeResult.isSuccess (r : TradeResult) : Bool :=
  r.status = TradeStatus.SUCCESS

/-- Source `TradeResult::isRetryable`: CONNECTION_ERROR or REJECTED. -/
def TradeResult.isRetryable (r : TradeResult) : Bool :=
  r.status = TradeStatus.CONNECTION_ERROR || r.status = TradeStatus.REJECTED

/-- Symbol metadata of `IMTBrokerAPI.h`. -/
structure SymbolInfo where
  name : String
  bid : Rat
  ask : Rat
  minVolume : Rat
  maxVolume : Rat
  volumeStep : Rat
  digits : Nat
  tradeAllowed : Bool
deriving DecidableEq, Repr

/-! ## Retry executor (`DealProcessor::executeWithRetry`)

The broker is abstracted as `broker : Nat → TradeResult`, the result the
`api_.executeTrade` call of attempt `n` returns. The engine's mutation
`result.retryCount = attempt` and the post-loop exhaustion rewrite are
embedded literally. The backoff sleeps are collected into a list of
millisecond durations and the number of broker calls is counted. -/

/-- Retry configuration fields of `ProcessorConfig` used by the retry loop. -/
structure ProcessorConfig where
  maxRetries : Nat
  retryBaseMs : Nat
deriving DecidableEq, Repr

/-- Observable outcome of one `executeWithRetry` run: the returned result,
the backoff sleeps performed (in order, milliseconds), and how many broker
calls (`api_.executeTrade`) were made. -/
structure RetryOutcome where
  result : TradeResult
  sleeps : List Nat
  calls : Nat
deriving DecidableEq, Repr

/-- The result of the broker call of attempt `attempt`, after the engine
stamps `result.retryCount = attempt`. -/
def attemptResult (broker : Nat → TradeResult) (attempt : Nat) : TradeResult :=
  { broker attempt with retryCount := attempt }

/-- The sleeps performed at the top of loop iteration `attempt`:
none for attempt 0, else `retryBaseMs * 2 ^ (attempt - 1)` ms
(source: `int delayMs = config_.retryBaseMs * (1 << (attempt - 1))`). -/
def sleepsAt (base attempt : Nat) : List Nat :=
  if attempt = 0 then [] else [base * 2 ^ (attempt - 1)]

/-- Early-return condition of the retry loop: return the result as soon as it is
a success or a non-retryable failure (source: `if (result.isSuccess() || !result.isRetryable())`). -/
def stopAfter (r : TradeResult) : Bool :=
  r.isSuccess || !r.isRetryable

/-- The post-loop rewrite when every attempt failed with a retryable status
(source lines 140-146 of `DealProcessor.cpp`). -/
def exhaust (maxRetries : Nat) (r : TradeResult) : TradeResult :=
  { r with
      status := TradeStatus.RETRY_EXHAUSTED,
      errorMessage := "All " ++ toString (maxRetries + 1) ++
        " attempts failed. Last error: " ++ r.errorMessage,
      retryCount := maxRetries }

/-- The retry loop from iteration `attempt` with `rem` further iterations
allowed after the current one (`attempt + rem = maxRetries` at every call). -/
def retryRun (broker : Nat → TradeResult) (maxRetries base attempt : Nat) :
    Nat → RetryOutcome
  | 0 =>
    let r := attemptResult broker attempt
    if stopAfter r then ⟨r, sleepsAt base attempt, 1⟩
    else ⟨exhaust maxRetries r, sleepsAt base attempt, 1⟩
  | rem + 1 =>
    let r := attemptResult broker attempt
    if stopAfter r then ⟨r, sleepsAt base attempt, 1⟩
    else
      let rest := retryRun broker maxRetries base (attempt + 1) rem
      ⟨rest.result, sleepsAt base attempt ++ rest.sleeps, rest.calls + 1⟩

/-- Source `DealProcessor::executeWithRetry`: the loop
`for (int attempt = 0; attempt <= config_.maxRetries; ++attempt)`. -/
def executeWithRetry (broker : Nat → TradeResult) (cfg : ProcessorConfig) :
    RetryOutcome :=
  retryRun broker cfg.maxRetries cfg.retryBaseMs 0 cfg.maxRetries

theorem retryRun_zero (broker : Nat → TradeResult) (maxRetries base attempt : Nat) :
    retryRun broker maxRetries base attempt 0 =
      if stopAfter (attemptResult broker attempt) then
        ⟨attemptResult broker attempt, sleepsAt base attempt, 1⟩
      else ⟨exhaust maxRetries (attemptResult broker attempt), sleepsAt base attempt, 1⟩ := rfl

theorem retryRun_succ (broker : Nat → TradeResult) (maxRetries base attempt rem : Nat) :
    retryRun broker maxRetries base attempt (rem + 1) =
      if stopAfter (attemptResult broker attempt) then
        ⟨attemptResult broker attempt, sleepsAt base attempt, 1⟩
      else
        ⟨(retryRun broker maxRetries base (attempt + 1) rem).result,
          sleepsAt base attempt ++ (retryRun broker maxRetries base (attempt + 1) rem).sleeps,
          (retryRun broker maxRetries base (attempt + 1) rem).calls + 1⟩ := rfl

/-- Retryable statuses are exactly CONNECTION_ERROR and REJECTED. -/
theorem isRetryable_iff (r : TradeResult) :
    r.isRetryable = true ↔
      (r.status = TradeStatus.CONNECTION_ERROR ∨ r.status = TradeStatus.REJECTED) := by
  simp [TradeResult.isRetryable]

/-- A retryable result is never a success, so the loop continues on it. -/
theorem stopAfter_of_retryable (r : TradeResult)
    (h : r.status = TradeStatus.CONNECTION_ERROR ∨ r.status = TradeStatus.REJECTED) :
    stopAfter r = false := by
  rcases h with h | h <;>
    simp [stopAfter, TradeResult.isSuccess, TradeResult.isRetryable, h]

/-- Updating `retryCount` does not change the early-return condition. -/
theorem stopAfter_attemptResult (broker : Nat → TradeResult) (n : Nat) :
    stopAfter (attemptResult broker n) = stopAfter (broker n) := rfl

/-- Repackaged early-return condition from the success-or-terminal disjunction. -/
theorem stopAfter_of_terminal (r : TradeResult)
    (h : r.isSuccess = true ∨ r.isRetryable = false) : stopAfter r = true := by
  rcases h with h | h <;> simp [stopAfter, h]

/-- All backoff sleeps performed from loop iteration `a` through iteration `k`. -/
def sleepsSeg (base a k : Nat) : List Nat :=
  (List.range' (a - 1) (k - (a - 1))).map (fun n => base * 2 ^ n)

theorem sleepsSeg_self (base a : Nat) : sleepsSeg base a a = sleepsAt base a := by
  cases a with
  | zero => rfl
  | succ a' =>
    simp only [sleepsSeg, sleepsAt, Nat.succ_sub_one, Nat.add_eq, Nat.succ_ne_zero,
      if_false, show a' + 1 - a' = 1 by omega]
    simp [List.range']

theorem sleepsAt_append (base a k : Nat) (h : a < k) :
    sleepsAt base a ++ sleepsSeg base (a + 1) k = sleepsSeg base a k := by
  cases a with
  | zero => simp [sleepsAt, sleepsSeg]
  | succ a' =>
    simp only [sleepsAt, sleepsSeg, Nat.succ_sub_one, Nat.add_sub_cancel]
    rw [show k - a' = (k - (a' + 1)) + 1 by omega, List.range'_succ]
    simp

/-- Inside the loop, if every attempt from `attempt` to `maxRetries` returns a
retryable status, the loop exhausts its budget and applies the post-loop
rewrite to the final attempt's result. -/
theorem retryRun_all_retryable (broker : Nat → TradeResult) (maxRetries base : Nat) :
    ∀ rem attempt, attempt + rem = maxRetries →
    (∀ n, attempt ≤ n → n ≤ maxRetries →
      (broker n).status = TradeStatus.CONNECTION_ERROR ∨
        (broker n).status = TradeStatus.REJECTED) →
    retryRun broker maxRetries base attempt rem =
      ⟨exhaust maxRetries (attemptResult broker maxRetries),
        sleepsSeg base attempt maxRetries, rem + 1⟩ := by
  intro rem
  induction rem with
  | zero =>
    intro attempt ha hbad
    have hstop : stopAfter (attemptResult broker attempt) = false := by
      rw [stopAfter_attemptResult]
      exact stopAfter_of_retryable _ (hbad attempt (Nat.le_refl _) (by omega))
    have hA : attempt = maxRetries := by omega
    rw [retryRun_zero, hstop]
    subst hA
    simp [sleepsSeg_self]
  | succ rem ih =>
    intro attempt ha hbad
    have hstop : stopAfter (attemptResult broker attempt) = false := by
      rw [stopAfter_attemptResult]
      exact stopAfter_of_retryable _ (hbad attempt (Nat.le_refl _) (by omega))
    rw [retryRun_succ, hstop]
    simp only [Bool.false_eq_true, if_false]
    rw [ih (attempt + 1) (by omega) (fun n h1 h2 => hbad n (by omega) h2)]
    have hlt : attempt < maxRetries := by omega
    simp [sleepsAt_append base attempt maxRetries hlt]

/-- Inside the loop, if attempts before `k` are retryable and attempt `k`
terminates (success or non-retryable), the loop returns attempt `k`'s result
with `retryCount = k` after exactly `k + 1 - attempt` broker calls. -/
theorem retryRun_stops_early (broker : Nat → TradeResult) (maxRetries base : Nat) :
    ∀ rem attempt k, attempt + rem = maxRetries → attempt ≤ k → k ≤ maxRetries →
    (∀ j, attempt ≤ j → j < k →
      (broker j).status = TradeStatus.CONNECTION_ERROR ∨
        (broker j).status = TradeStatus.REJECTED) →
    stopAfter (broker k) = true →
    retryRun broker maxRetries base attempt rem =
      ⟨attemptResult broker k, sleepsSeg base attempt k, k + 1 - attempt⟩ := by
  intro rem
  induction rem with
  | zero =>
    intro attempt k ha hak hkm hbad hstop
    have hA : attempt = maxRetries := by omega
    have hK : k = attempt := by omega
    subst hK
    rw [retryRun_zero, stopAfter_attemptResult, hstop]
    simp [sleepsSeg_self]
  | succ rem ih =>
    intro attempt k ha hak hkm hbad hstop
    rcases Nat.eq_or_lt_of_le hak with hK | hlt
    · subst hK
      rw [retryRun_succ, stopAfter_attemptResult, hstop]
      simp [sleepsSeg_self]
    · have hfail : stopAfter (attemptResult broker attempt) = false := by
        rw [stopAfter_attemptResult]
        exact stopAfter_of_retryable _ (hbad attempt (Nat.le_refl _) hlt)
      rw [retryRun_succ, hfail]
      simp only [Bool.false_eq_true, if_false]
      rw [ih (attempt + 1) k (by omega) hlt hkm
        (fun j h1 h2 => hbad j (by omega) h2) hstop]
      simp only [sleepsAt_append base attempt k hlt]
      have : k + 1 - (attempt + 1) + 1 = k + 1 - attempt := by omega
      rw [this]

/-- The loop with `rem` iterations remaining makes at most `rem + 1` broker calls. -/
theorem retryRun_calls_le (broker : Nat → TradeResult) (maxRetries base : Nat) :
    ∀ rem attempt, (retryRun broker maxRetries base attempt rem).calls ≤ rem + 1 := by
  intro rem
  induction rem with
  | zero =>
    intro attempt
    rw [retryRun_zero]
    cases h : stopAfter (attemptResult broker attempt) <;> simp [h]
  | succ rem ih =>
    intro attempt
    rw [retryRun_succ]
    cases h : stopAfter (attemptResult broker attempt) with
    | false =>
      simp only [h, Bool.false_eq_true, if_false]
      show (retryRun broker maxRetries base (attempt + 1) rem).calls + 1 ≤ rem + 1 + 1
      have := ih (attempt + 1)
      omega
    | true => simp [h]

/-- Claim C1: when every one of the `maxRetries + 1` attempts returns a
retryable status (CONNECTION_ERROR or REJECTED), `executeWithRetry` returns a
result with status RETRY_EXHAUSTED, `retryCount = maxRetries`, and an error
message "All N attempts failed. Last error: " (N = maxRetries + 1) followed by
the final attempt's underlying error message. -/
theorem executeWithRetry_exhausts_on_all_retryable
    (broker : Nat → TradeResult) (cfg : ProcessorConfig)
    (h : ∀ n, n ≤ cfg.maxRetries →
      (broker n).status = TradeStatus.CONNECTION_ERROR ∨
        (broker n).status = TradeStatus.REJECTED) :
    (executeWithRetry broker cfg).result.status = TradeStatus.RETRY_EXHAUSTED ∧
    (executeWithRetry broker cfg).result.retryCount = cfg.maxRetries ∧
    (executeWithRetry broker cfg).result.errorMessage =
      "All " ++ toString (cfg.maxRetries + 1) ++ " attempts failed. Last error: " ++
        (broker cfg.maxRetries).errorMessage := by
  unfold executeWithRetry
  rw [retryRun_all_retryable broker cfg.maxRetries cfg.retryBaseMs cfg.maxRetries 0
    (by omega) (fun n _ h2 => h n h2)]
  exact ⟨rfl, rfl, rfl⟩

/-- Concrete broker whose every attempt times out, for the C1 witness. -/
def alwaysFailingBroker : Nat → TradeResult := fun _ =>
  ⟨"R1", "C1", TradeStatus.CONNECTION_ERROR, "", 0,
    "MT5 server connection timeout during DealerSend()", 0⟩

/-- Witness for claim C1 at `maxRetries = 2`. -/
theorem executeWithRetry_exhausts_on_all_retryable_witness :
    (executeWithRetry alwaysFailingBroker ⟨2, 100⟩).result.status =
        TradeStatus.RETRY_EXHAUSTED ∧
    (executeWithRetry alwaysFailingBroker ⟨2, 100⟩).result.retryCount = 2 ∧
    (executeWithRetry alwaysFailingBroker ⟨2, 100⟩).result.errorMessage =
      "All " ++ toString (2 + 1) ++ " attempts failed. Last error: " ++
        (alwaysFailingBroker 2).errorMessage :=
  executeWithRetry_exhausts_on_all_retryable alwaysFailingBroker ⟨2, 100⟩
    (fun _ _ => Or.inl rfl)

/-- Claim C2: `executeWithRetry` makes at most `maxRetries + 1` broker calls;
attempt 0 is issued with no preceding sleep; before each later attempt it
sleeps `retryBaseMs * 2 ^ n` ms, `n` the zero-based index of the previous
attempt; a result is retryable iff its status is CONNECTION_ERROR or REJECTED;
and on a success or non-retryable status at attempt `k` it returns that broker
result immediately with `retryCount = k` after exactly `k + 1` calls. -/
theorem executeWithRetry_backoff_early_return
    (broker : Nat → TradeResult) (cfg : ProcessorConfig) (k : Nat)
    (hk : k ≤ cfg.maxRetries)
    (hbad : ∀ j, j < k →
      (broker j).status = TradeStatus.CONNECTION_ERROR ∨
        (broker j).status = TradeStatus.REJECTED)
    (hgood : (broker k).isSuccess = true ∨ (broker k).isRetryable = false) :
    (executeWithRetry broker cfg).result = { broker k with retryCount := k } ∧
    (executeWithRetry broker cfg).calls = k + 1 ∧
    (executeWithRetry broker cfg).sleeps =
      (List.range k).map (fun n => cfg.retryBaseMs * 2 ^ n) ∧
    (∀ b : Nat → TradeResult, (executeWithRetry b cfg).calls ≤ cfg.maxRetries + 1) ∧
    (∀ r : TradeResult, r.isRetryable = true ↔
      (r.status = TradeStatus.CONNECTION_ERROR ∨ r.status = TradeStatus.REJECTED)) := by
  unfold executeWithRetry
  rw [retryRun_stops_early broker cfg.maxRetries cfg.retryBaseMs cfg.maxRetries 0 k
    (by omega) (Nat.zero_le _) hk (fun j _ h2 => hbad j h2)
    (stopAfter_of_terminal _ hgood)]
  refine ⟨rfl, show k + 1 - 0 = k + 1 by omega, ?_,
    fun b => retryRun_calls_le b cfg.maxRetries cfg.retryBaseMs cfg.maxRetries 0,
    isRetryable_iff⟩
  show sleepsSeg cfg.retryBaseMs 0 k = (List.range k).map (fun n => cfg.retryBaseMs * 2 ^ n)
  simp [sleepsSeg, List.range_eq_range']

/-- Concrete broker that times out on attempt 0 and fills on attempt 1,
for the C2 witness. -/
def flakyBroker : Nat → TradeResult := fun n =>
  if n = 0 then
    ⟨"R2", "C1", TradeStatus.CONNECTION_ERROR, "", 0,
      "MT5 server connection timeout during DealerSend()", 0⟩
  else ⟨"R2", "C1", TradeStatus.SUCCESS, "17", 108, "", 0⟩

/-- Witness for claim C2: one transient failure, then success at attempt 1. -/
theorem executeWithRetry_backoff_early_return_witness :
    (executeWithRetry flakyBroker ⟨3, 10⟩).result = { flakyBroker 1 with retryCount := 1 } ∧
    (executeWithRetry flakyBroker ⟨3, 10⟩).calls = 1 + 1 ∧
    (executeWithRetry flakyBroker ⟨3, 10⟩).sleeps =
      (List.range 1).map (fun n => (10 : Nat) * 2 ^ n) ∧
    (∀ b : Nat → TradeResult,
      (executeWithRetry b ⟨3, 10⟩).calls ≤ 3 + 1) ∧
    (∀ r : TradeResult, r.isRetryable = true ↔
      (r.status = TradeStatus.CONNECTION_ERROR ∨ r.status = TradeStatus.REJECTED)) :=
  executeWithRetry_backoff_early_return flakyBroker ⟨3, 10⟩ 1 (by decide)
    (fun j hj => Or.inl (by
      have : j = 0 := by omega
      rw [this]
      rfl))
    (Or.inl rfl)

/-! ## Validator (`Validator.h`)

`Validator::validate` first runs the deduplication critical section (lookup
and insert of `requestId` in `seenRequests_`), then a chain of checks that
never touches the seen-set. The broker is abstracted by the `getSymbolInfo`
lookup function; the broker calls the validator makes are recorded in a
ledger so that "no broker call" is a provable statement. -/

/-- One call to the broker interface `IMTBrokerAPI` as observed by a ledger. -/
inductive BrokerCall where
  | getSymbolInfo (symbol : String)
  | executeTrade (requestId : String)
deriving DecidableEq, Repr

/-- Source `Validator::makeError`: an error result carrying the request's ids,
an empty ticket and a zero execution price. -/
def makeError (req : TradeRequest) (status : TradeStatus) (msg : String) : TradeResult :=
  { requestId := req.requestId, clientId := req.clientId, status := status,
    mtTicketId := "", executionPrice := 0, errorMessage := msg, retryCount := 0 }

/-- Source check 5b of `Validator::validate`: the take-profit sanity check. -/
def checkTakeProfit (req : TradeRequest) : Option TradeResult :=
  match req.takeProfit with
  | some tp =>
    if tp ≤ 0 then
      some (makeError req TradeStatus.INVALID_PARAMS ("Invalid take profit: " ++ toString tp))
    else none
  | none => none

/-- Source check 5a then 5b of `Validator::validate`: stop-loss, then take-profit. -/
def checkStopLossTP (req : TradeRequest) : Option TradeResult :=
  match req.stopLoss with
  | some sl =>
    if sl ≤ 0 then
      some (makeError req TradeStatus.INVALID_PARAMS ("Invalid stop loss: " ++ toString sl))
    else checkTakeProfit req
  | none => checkTakeProfit req

/-- Source checks 2-5 of `Validator::validate` (everything after the dedup
critical section; these never touch `seenRequests_`). Returns the optional
error result and the broker calls made. -/
def validateChecks (api : String → Option SymbolInfo) (req : TradeRequest) :
    Option TradeResult × List BrokerCall :=
  if req.clientId = "" then
    (some (makeError req TradeStatus.INVALID_PARAMS "Empty client ID"), [])
  else if req.symbol = "" then
    (some (makeError req TradeStatus.INVALID_PARAMS "Empty symbol"), [])
  else if req.volume ≤ 0 then
    (some (makeError req TradeStatus.INVALID_PARAMS
      ("Invalid volume: " ++ toString req.volume)), [])
  else
    match api req.symbol with
    | none =>
      (some (makeError req TradeStatus.INVALID_PARAMS ("Unknown symbol: " ++ req.symbol)),
        [BrokerCall.getSymbolInfo req.symbol])
    | some info =>
      if !info.tradeAllowed then
        (some (makeError req TradeStatus.REJECTED ("Trading not allowed for: " ++ req.symbol)),
          [BrokerCall.getSymbolInfo req.symbol])
      else if req.volume < info.minVolume ∨ info.maxVolume < req.volume then
        (some (makeError req TradeStatus.INVALID_PARAMS
          ("Volume " ++ toString req.volume ++ " outside range [" ++
            toString info.minVolume ++ ", " ++ toString info.maxVolume ++ "]")),
          [BrokerCall.getSymbolInfo req.symbol])
      else (checkStopLossTP req, [BrokerCall.getSymbolInfo req.symbol])

/-- Observable outcome of one `Validator::validate` call: the optional error
result, the seen-set after the call, and the broker calls made during it. -/
structure ValidateOutcome where
  result : Option TradeResult
  seen : List String
  calls : List BrokerCall
deriving DecidableEq, Repr

/-- Source `Validator::validate`: the dedup critical section (return DUPLICATE
if seen, else insert), then the check chain. The seen-set `seenRequests_` is a
list of request ids. -/
def validate (api : String → Option SymbolInfo) (req : TradeRequest)
    (seen : List String) : ValidateOutcome :=
  if req.requestId ∈ seen then
    ⟨some (makeError req TradeStatus.DUPLICATE ("Duplicate request ID: " ++ req.requestId)),
      seen, []⟩
  else
    ⟨(validateChecks api req).1, req.requestId :: seen, (validateChecks api req).2⟩

/-- One check of the claim's ordered list: whether it passes and the status
its failure would produce. -/
structure SpecCheck where
  ok : Bool
  failStatus : TradeStatus
deriving DecidableEq, Repr

/-- Status of the first failing check of an ordered check list,
`none` when every check passes. -/
def firstFailStatus : List SpecCheck → Option TradeStatus
  | [] => none
  | c :: cs => if c.ok then firstFailStatus cs else some c.failStatus

/-- The claim's checks, in its stated fixed order: deduplication, identity
(clientId and symbol non-empty), volume positivity, symbol existence via
`getSymbolInfo`, trade permission, volume range, SL/TP positivity. Written
from the claim's words, for comparison against `validate`. -/
def specOrderedChecks (api : String → Option SymbolInfo) (req : TradeRequest)
    (seen : List String) : List SpecCheck :=
  ⟨decide (req.requestId ∉ seen), TradeStatus.DUPLICATE⟩ ::
  ⟨decide (req.clientId ≠ ""), TradeStatus.INVALID_PARAMS⟩ ::
  ⟨decide (req.symbol ≠ ""), TradeStatus.INVALID_PARAMS⟩ ::
  ⟨decide (0 < req.volume), TradeStatus.INVALID_PARAMS⟩ ::
  (match api req.symbol with
   | none => [⟨false, TradeStatus.INVALID_PARAMS⟩]
   | some info =>
     [⟨true, TradeStatus.INVALID_PARAMS⟩,
      ⟨info.tradeAllowed, TradeStatus.REJECTED⟩,
      ⟨decide (info.minVolume ≤ req.volume ∧ req.volume ≤ info.maxVolume),
        TradeStatus.INVALID_PARAMS⟩,
      ⟨(match req.stopLoss with | some sl => decide (0 < sl) | none => true),
        TradeStatus.INVALID_PARAMS⟩,
      ⟨(match req.takeProfit with | some tp => decide (0 < tp) | none => true),
        TradeStatus.INVALID_PARAMS⟩])

/-- Claim C3: `validate` applies its checks in the fixed order deduplication,
identity, volume positivity, symbol existence, trade permission, volume range,
SL/TP positivity, returning the first failing check's error (DUPLICATE for
dedup, REJECTED for trade permission, INVALID_PARAMS otherwise) with the
request's ids and a zero execution price, and passes iff all checks pass. -/
theorem validate_first_failing_check (api : String → Option SymbolInfo)
    (req : TradeRequest) (seen : List String) :
    ((validate api req seen).result).map (fun r => r.status)
        = firstFailStatus (specOrderedChecks api req seen) ∧
    ((validate api req seen).result).map (fun r => (r.requestId, r.clientId, r.executionPrice))
        = (firstFailStatus (specOrderedChecks api req seen)).map
            (fun _ => (req.requestId, req.clientId, (0 : Rat))) ∧
    ((validate api req seen).result = none ↔
      ∀ c ∈ specOrderedChecks api req seen, c.ok = true) := by
  by_cases h1 : req.requestId ∈ seen
  · simp [validate, h1, specOrderedChecks, firstFailStatus, makeError]
  · simp only [validate, if_neg h1]
    by_cases h2 : req.clientId = ""
    · simp [validateChecks, specOrderedChecks, firstFailStatus, h1, h2, makeError]
    · by_cases h3 : req.symbol = ""
      · simp [validateChecks, specOrderedChecks, firstFailStatus, h1, h2, h3, makeError]
      · by_cases h4 : req.volume ≤ 0
        · have h4' : ¬ (0 : Rat) < req.volume := not_lt.mpr h4
          simp [validateChecks, specOrderedChecks, firstFailStatus, h1, h2, h3, h4, h4',
            makeError]
        · have h4' : (0 : Rat) < req.volume := not_le.mp h4
          cases hapi : api req.symbol with
          | none =>
            simp [validateChecks, specOrderedChecks, firstFailStatus, h1, h2, h3, h4, h4',
              hapi, makeError]
          | some info =>
            cases hta : info.tradeAllowed with
            | false =>
              simp [validateChecks, specOrderedChecks, firstFailStatus, h1, h2, h3, h4, h4',
                hapi, hta, makeError]
            | true =>
              by_cases hr : req.volume < info.minVolume ∨ info.maxVolume < req.volume
              · have hr' : ¬ (info.minVolume ≤ req.volume ∧ req.volume ≤ info.maxVolume) := by
                  rcases hr with hr | hr
                  · exact fun hc => absurd hc.1 (not_le.mpr hr)
                  · exact fun hc => absurd hc.2 (not_le.mpr hr)
                simp [validateChecks, specOrderedChecks, firstFailStatus, h1, h2, h3, h4, h4',
                  hapi, hta, hr, hr', makeError]
              · have hr1 : info.minVolume ≤ req.volume := by
                  rcases not_or.mp hr with ⟨ha, _⟩
                  exact not_lt.mp ha
                have hr2 : req.volume ≤ info.maxVolume := by
                  rcases not_or.mp hr with ⟨_, hb⟩
                  exact not_lt.mp hb
                cases hsl : req.stopLoss with
                | some sl =>
                  by_cases hsl0 : sl ≤ 0
                  · have hsl0' : ¬ (0 : Rat) < sl := not_lt.mpr hsl0
                    simp [validateChecks, checkStopLossTP, specOrderedChecks, firstFailStatus,
                      h1, h2, h3, h4, h4', hapi, hta, hr, hr1, hr2, hsl, hsl0, hsl0', makeError]
                  · have hsl0' : (0 : Rat) < sl := not_le.mp hsl0
                    cases htp : req.takeProfit with
                    | some tp =>
                      by_cases htp0 : tp ≤ 0
                      · have htp0' : ¬ (0 : Rat) < tp := not_lt.mpr htp0
                        simp [validateChecks, checkStopLossTP, checkTakeProfit,
                          specOrderedChecks, firstFailStatus, h1, h2, h3, h4, h4', hapi, hta,
                          hr, hr1, hr2, hsl, hsl0, hsl0', htp, htp0, htp0', makeError]
                      · have htp0' : (0 : Rat) < tp := not_le.mp htp0
                        simp [validateChecks, checkStopLossTP, checkTakeProfit,
                          specOrderedChecks, firstFailStatus, h1, h2, h3, h4, h4', hapi, hta,
                          hr, hr1, hr2, hsl, hsl0, hsl0', htp, htp0, htp0', makeError]
                    | none =>
                      simp [validateChecks, checkStopLossTP, checkTakeProfit,
                        specOrderedChecks, firstFailStatus, h1, h2, h3, h4, h4', hapi, hta,
                        hr, hr1, hr2, hsl, hsl0, hsl0', htp, makeError]
                | none =>
                  cases htp : req.takeProfit with
                  | some tp =>
                    by_cases htp0 : tp ≤ 0
                    · have htp0' : ¬ (0 : Rat) < tp := not_lt.mpr htp0
                      simp [validateChecks, checkStopLossTP, checkTakeProfit,
                        specOrderedChecks, firstFailStatus, h1, h2, h3, h4, h4', hapi, hta,
                        hr, hr1, hr2, hsl, htp, htp0, htp0', makeError]
                    · have htp0' : (0 : Rat) < tp := not_le.mp htp0
                      simp [validateChecks, checkStopLossTP, checkTakeProfit,
                        specOrderedChecks, firstFailStatus, h1, h2, h3, h4, h4', hapi, hta,
                        hr, hr1, hr2, hsl, htp, htp0, htp0', makeError]
                  | none =>
                    simp [validateChecks, checkStopLossTP, checkTakeProfit,
                      specOrderedChecks, firstFailStatus, h1, h2, h3, h4, h4', hapi, hta,
                      hr, hr1, hr2, hsl, htp, makeError]

/-- Dedup branch of `validate`: an already-seen requestId returns DUPLICATE,
leaves the seen-set unchanged, and makes no broker call. -/
theorem validate_dup_of_mem (api : String → Option SymbolInfo) (req : TradeRequest)
    (seen : List String) (h : req.requestId ∈ seen) :
    validate api req seen =
      ⟨some (makeError req TradeStatus.DUPLICATE ("Duplicate request ID: " ++ req.requestId)),
        seen, []⟩ := by
  simp [validate, h]

/-- The post-dedup checks only produce INVALID_PARAMS or REJECTED errors. -/
theorem validateChecks_status (api : String → Option SymbolInfo) (req : TradeRequest) :
    ∀ r, (validateChecks api req).1 = some r →
      r.status = TradeStatus.INVALID_PARAMS ∨ r.status = TradeStatus.REJECTED := by
  intro r h
  unfold validateChecks checkStopLossTP checkTakeProfit at h
  repeat' split at h
  all_goals simp_all [makeError]
  all_goals subst h
  all_goals simp

/-- A fresh requestId never yields a DUPLICATE result. -/
theorem validate_notDup (api : String → Option SymbolInfo) (req : TradeRequest)
    (seen : List String) (h : req.requestId ∉ seen) :
    ∀ r, (validate api req seen).result = some r → r.status ≠ TradeStatus.DUPLICATE := by
  intro r hr
  simp only [validate, if_neg h] at hr
  rcases validateChecks_status api req r hr with h' | h' <;> simp [h']

/-- A `validate` call never removes entries from the seen-set. -/
theorem validate_seen_subset (api : String → Option SymbolInfo) (req : TradeRequest)
    (seen : List String) : seen ⊆ (validate api req seen).seen := by
  by_cases h : req.requestId ∈ seen <;> simp [validate, h, List.subset_cons_self]

/-- After a `validate` call, its requestId is in the seen-set. -/
theorem validate_mem_seen (api : String → Option SymbolInfo) (req : TradeRequest)
    (seen : List String) : req.requestId ∈ (validate api req seen).seen := by
  by_cases h : req.requestId ∈ seen <;> simp [validate, h]

/-- A `validate` call that returns DUPLICATE makes no broker call. -/
theorem validate_duplicate_no_calls (api : String → Option SymbolInfo) :
    ∀ (req : TradeRequest) (st : List String) (r : TradeResult),
      (validate api req st).result = some r → r.status = TradeStatus.DUPLICATE →
      (validate api req st).calls = [] := by
  intro req st r hr hstat
  by_cases h : req.requestId ∈ st
  · simp [validate, h]
  · exact absurd hstat (validate_notDup api req st h r hr)

/-- Claim C4: for two `validate` calls on requests with the same, previously
unseen requestId, run in either order, the first call returns a non-DUPLICATE
outcome, the second returns DUPLICATE, and a DUPLICATE call makes no broker
call (neither `getSymbolInfo` nor `executeTrade`: its call ledger is empty). -/
theorem validate_duplicate_pair (api : String → Option SymbolInfo)
    (r1 r2 : TradeRequest) (seen : List String)
    (hid : r1.requestId = r2.requestId) (hfresh : r1.requestId ∉ seen) :
    (∀ r, (validate api r1 seen).result = some r → r.status ≠ TradeStatus.DUPLICATE) ∧
    (validate api r2 (validate api r1 seen).seen).result =
      some (makeError r2 TradeStatus.DUPLICATE ("Duplicate request ID: " ++ r2.requestId)) ∧
    (validate api r2 (validate api r1 seen).seen).calls = [] ∧
    (∀ (req : TradeRequest) (st : List String) (r : TradeResult),
      (validate api req st).result = some r → r.status = TradeStatus.DUPLICATE →
      (validate api req st).calls = []) := by
  have hmem : r2.requestId ∈ (validate api r1 seen).seen := by
    rw [← hid]
    exact validate_mem_seen api r1 seen
  refine ⟨validate_notDup api r1 seen hfresh, ?_, ?_, validate_duplicate_no_calls api⟩
  · rw [validate_dup_of_mem api r2 _ hmem]
  · rw [validate_dup_of_mem api r2 _ hmem]

/-- Broker lookup that knows no symbols, for concrete witnesses. -/
def apiNone : String → Option SymbolInfo := fun _ => none

/-- Concrete request of client C1, for witnesses. -/
def reqA : TradeRequest := ⟨"C1", "R", TradeType.BUY, "EURUSD", 1, none, none, false⟩

/-- Concrete request of client C2 reusing requestId "R", for witnesses. -/
def reqB : TradeRequest := ⟨"C2", "R", TradeType.BUY, "EURUSD", 1, none, none, false⟩

/-- Witness for claim C4: two concrete requests sharing requestId "R". -/
theorem validate_duplicate_pair_witness :
    (∀ r, (validate apiNone reqA []).result = some r →
      r.status ≠ TradeStatus.DUPLICATE) ∧
    (validate apiNone reqB (validate apiNone reqA []).seen).result =
      some (makeError reqB TradeStatus.DUPLICATE ("Duplicate request ID: " ++ reqB.requestId)) ∧
    (validate apiNone reqB (validate apiNone reqA []).seen).calls = [] ∧
    (∀ (req : TradeRequest) (st : List String) (r : TradeResult),
      (validate apiNone req st).result = some r → r.status = TradeStatus.DUPLICATE →
      (validate apiNone req st).calls = []) :=
  validate_duplicate_pair apiNone reqA reqB [] rfl (by simp)

/-- Sequential runs of `Validator::validate` over a request list, threading
the seen-set; returns the per-request outcomes in order and the final seen-set. -/
def runValidate (api : String → Option SymbolInfo) :
    List TradeRequest → List String → List (Option TradeResult) × List String
  | [], seen => ([], seen)
  | req :: rest, seen =>
    ((validate api req seen).result :: (runValidate api rest (validate api req seen).seen).1,
      (runValidate api rest (validate api req seen).seen).2)

theorem runValidate_cons (api : String → Option SymbolInfo) (req : TradeRequest)
    (rest : List TradeRequest) (seen : List String) :
    runValidate api (req :: rest) seen =
      ((validate api req seen).result ::
          (runValidate api rest (validate api req seen).seen).1,
        (runValidate api rest (validate api req seen).seen).2) := rfl

/-- A sequential run never removes entries from the seen-set. -/
theorem runValidate_seen_subset (api : String → Option SymbolInfo) :
    ∀ (reqs : List TradeRequest) (seen : List String),
      seen ⊆ (runValidate api reqs seen).2 := by
  intro reqs
  induction reqs with
  | nil => intro seen; simp [runValidate]
  | cons req rest ih =>
    intro seen
    rw [runValidate_cons]
    exact List.Subset.trans (validate_seen_subset api req seen) (ih _)

/-- If request `j` of a run reuses a requestId that is in the initial seen-set
or was consumed by an earlier request of the run, its outcome is DUPLICATE. -/
theorem runValidate_dup_output (api : String → Option SymbolInfo) :
    ∀ (reqs : List TradeRequest) (seen : List String) (j : Nat) (y : TradeRequest),
      reqs[j]? = some y →
      (y.requestId ∈ seen ∨
        ∃ i x, i < j ∧ reqs[i]? = some x ∧ x.requestId = y.requestId) →
      ∃ r, (runValidate api reqs seen).1[j]? = some (some r) ∧
        r.status = TradeStatus.DUPLICATE := by
  intro reqs
  induction reqs with
  | nil => intro seen j y hy; simp at hy
  | cons req rest ih =>
    intro seen j y hy hcond
    cases j with
    | zero =>
      simp only [List.getElem?_cons_zero, Option.some.injEq] at hy
      subst hy
      have hmem : req.requestId ∈ seen := by
        rcases hcond with h | ⟨i, x, hi, _, _⟩
        · exact h
        · omega
      rw [runValidate_cons, validate_dup_of_mem api req seen hmem]
      refine ⟨makeError req TradeStatus.DUPLICATE ("Duplicate request ID: " ++ req.requestId),
        ?_, rfl⟩
      simp
    | succ j' =>
      rw [runValidate_cons]
      simp only [List.getElem?_cons_succ] at hy ⊢
      apply ih (validate api req seen).seen j' y hy
      rcases hcond with h | ⟨i, x, hi, hx, hxy⟩
      · exact Or.inl (validate_seen_subset api req seen h)
      · cases i with
        | zero =>
          simp only [List.getElem?_cons_zero, Option.some.injEq] at hx
          refine Or.inl ?_
          rw [← hxy, ← hx]
          exact validate_mem_seen api req seen
        | succ i' =>
          simp only [List.getElem?_cons_succ] at hx
          exact Or.inr ⟨i', x, by omega, hx, hxy⟩

/-- Claim C10: once `validate` has been called with a given requestId, every
later call of the run with that requestId returns DUPLICATE — even when the
earlier call itself returned a validation error — and the seen-set only
grows, never removing entries. -/
theorem validate_requestId_consumed_permanently (api : String → Option SymbolInfo)
    (reqs : List TradeRequest) (seen : List String) (i j : Nat)
    (x y : TradeRequest) (hij : i < j)
    (hx : reqs[i]? = some x) (hy : reqs[j]? = some y)
    (hid : x.requestId = y.requestId) :
    (∃ r, (runValidate api reqs seen).1[j]? = some (some r) ∧
      r.status = TradeStatus.DUPLICATE) ∧
    seen ⊆ (runValidate api reqs seen).2 :=
  ⟨runValidate_dup_output api reqs seen j y hy (Or.inr ⟨i, x, hij, hx, hid⟩),
    runValidate_seen_subset api reqs seen⟩

/-- Witness for claim C10: the second of two concrete requests sharing
requestId "R" comes back DUPLICATE, the first having failed validation. -/
theorem validate_requestId_consumed_permanently_witness :
    (∃ r, (runValidate apiNone [reqA, reqB] []).1[1]? = some (some r) ∧
      r.status = TradeStatus.DUPLICATE) ∧
    ([] : List String) ⊆ (runValidate apiNone [reqA, reqB] []).2 :=
  validate_requestId_consumed_permanently apiNone [reqA, reqB] [] 0 1 reqA reqB
    (by decide) rfl rfl rfl

/-! ## ThreadSafeQueue (`ThreadSafeQueue.h`)

Sequentialized model: `items` is the FIFO buffer, `shutdownFlag` the one-way
latch set by `shutdown()`. `pop` returns `none` for the shutdown-and-empty
"closed" sentinel; an empty queue that is not shut down would block the
caller instead, which a sequential model need not distinguish. -/

/-- Queue state of `ThreadSafeQueue.h`: buffered items and the shutdown latch. -/
structure ThreadSafeQueue (T : Type) where
  items : List T
  shutdownFlag : Bool
deriving DecidableEq, Repr

/-- Source `ThreadSafeQueue::push`: appends the item unconditionally — the
body takes the lock, pushes, and notifies; it never reads `shutdown_`. -/
def ThreadSafeQueue.push {T : Type} (q : ThreadSafeQueue T) (x : T) : ThreadSafeQueue T :=
  { q with items := q.items ++ [x] }

/-- Source `ThreadSafeQueue::pop` after its wait is satisfied: the front item
if any, else the closed sentinel (reachable only when shut down). -/
def ThreadSafeQueue.pop {T : Type} (q : ThreadSafeQueue T) :
    Option T × ThreadSafeQueue T :=
  match q.items with
  | [] => (none, q)
  | x :: rest => (some x, { q with items := rest })

/-- Source `ThreadSafeQueue::shutdown`: sets the latch. -/
def ThreadSafeQueue.shutdown {T : Type} (q : ThreadSafeQueue T) : ThreadSafeQueue T :=
  { q with shutdownFlag := true }

/-- Counterexample to claim C6: pushing 5 onto a shut-down empty queue is not
a no-op — the contents change from `[]` to `[5]`, and the next `pop` returns
the item pushed after shutdown. -/
theorem push_after_shutdown_not_noop :
    ((ThreadSafeQueue.mk ([] : List Nat) false).shutdown.push 5).items = [5] ∧
    ((ThreadSafeQueue.mk ([] : List Nat) false).shutdown.push 5).items ≠
      (ThreadSafeQueue.mk ([] : List Nat) false).shutdown.items ∧
    ((ThreadSafeQueue.mk ([] : List Nat) false).shutdown.push 5).pop =
      (some 5, ThreadSafeQueue.mk ([] : List Nat) true) := by
  refine ⟨rfl, by decide, rfl⟩

/-- Claim C6 amended: `push` ignores the shutdown latch entirely — after
`shutdown()` it still appends its item and leaves the latch set, and when the
shut-down queue was empty, the next `pop` returns the pushed item rather than
the closed sentinel. -/
theorem push_after_shutdown_enqueues (q : ThreadSafeQueue Nat) (x : Nat)
    (h : q.shutdownFlag = true) :
    (q.push x).items = q.items ++ [x] ∧
    (q.push x).shutdownFlag = true ∧
    (q.items = [] → (q.push x).pop.1 = some x) := by
  refine ⟨rfl, by rw [← h]; rfl, ?_⟩
  intro h0
  simp [ThreadSafeQueue.push, ThreadSafeQueue.pop, h0]

/-- Witness for the amended claim C6 at a concrete shut-down empty queue. -/
theorem push_after_shutdown_enqueues_witness :
    ((ThreadSafeQueue.mk ([] : List Nat) true).push 7).items = [] ++ [7] ∧
    ((ThreadSafeQueue.mk ([] : List Nat) true).push 7).shutdownFlag = true ∧
    ((ThreadSafeQueue.mk ([] : List Nat) true).items = [] →
      ((ThreadSafeQueue.mk ([] : List Nat) true).push 7).pop.1 = some 7) :=
  push_after_shutdown_enqueues ⟨[], true⟩ 7 rfl

/-! ## ResultTracker (`ResultTracker.cpp`)

The two `std::unordered_map`s are modelled as association lists with unique
keys: `insertA` is `map[key] = value` (overwrite in place or append),
`appendClient` is `clientRequests_[clientId].push_back(requestId)`. Counting
and lookup semantics of hash maps do not depend on entry order, so the
association list order (insertion order) is a faithful refinement. -/

/-- Association-list lookup, standing for `std::unordered_map::find`. -/
def lookupA {α : Type} : List (String × α) → String → Option α
  | [], _ => none
  | (k, v) :: rest, key => if k = key then some v else lookupA rest key

/-- Map write `m[key] = value`: overwrite in place, or append a new key. -/
def insertA {α : Type} : List (String × α) → String → α → List (String × α)
  | [], key, v => [(key, v)]
  | (k, w) :: rest, key, v =>
    if k = key then (key, v) :: rest else (k, w) :: insertA rest key v

/-- Secondary-index write `clientRequests_[clientId].push_back(requestId)`
(`operator[]` default-constructs an empty vector for a new client). -/
def appendClient : List (String × List String) → String → String →
    List (String × List String)
  | [], c, rid => [(c, [rid])]
  | (k, rids) :: rest, c, rid =>
    if k = c then (k, rids ++ [rid]) :: rest else (k, rids) :: appendClient rest c rid

/-- State of `ResultTracker`: the primary requestId → result map and the
secondary clientId → ordered requestId list index. -/
structure TrackerState where
  results : List (String × TradeResult)
  clientRequests : List (String × List String)
deriving DecidableEq, Repr

/-- A fresh `ResultTracker`. -/
def emptyTracker : TrackerState := ⟨[], []⟩

/-- Source `ResultTracker::record`: write both indices in one critical section. -/
def record (st : TrackerState) (r : TradeResult) : TrackerState :=
  ⟨insertA st.results r.requestId r,
    appendClient st.clientRequests r.clientId r.requestId⟩

/-- Source `ResultTracker::getByRequestId`. -/
def getByRequestId (st : TrackerState) (rid : String) : Option TradeResult :=
  lookupA st.results rid

/-- The requestId list of one client (empty for an unknown client). -/
def clientList (st : TrackerState) (c : String) : List String :=
  (lookupA st.clientRequests c).getD []

/-- Source `ResultTracker::getByClientId`: walk the client's requestIds in
order, keeping those found in `results_`. -/
def getByClientId (st : TrackerState) (c : String) : List TradeResult :=
  (clientList st c).filterMap (lookupA st.results)

/-- Counters of `ResultTracker::Stats`. -/
structure Stats where
  totalRequests : Nat
  successful : Nat
  rejected : Nat
  errors : Nat
  duplicates : Nat
deriving DecidableEq, Repr

/-- One iteration of the `getStats` loop: `totalRequests++` plus the switch
that adds the result to exactly one bucket. -/
def bucketAdd (s : Stats) (r : TradeResult) : Stats :=
  match r.status with
  | TradeStatus.SUCCESS =>
    { s with totalRequests := s.totalRequests + 1, successful := s.successful + 1 }
  | TradeStatus.DUPLICATE =>
    { s with totalRequests := s.totalRequests + 1, duplicates := s.duplicates + 1 }
  | TradeStatus.REJECTED =>
    { s with totalRequests := s.totalRequests + 1, rejected := s.rejected + 1 }
  | TradeStatus.MARGIN_ERROR =>
    { s with totalRequests := s.totalRequests + 1, rejected := s.rejected + 1 }
  | TradeStatus.RETRY_EXHAUSTED =>
    { s with totalRequests := s.totalRequests + 1, rejected := s.rejected + 1 }
  | TradeStatus.CONNECTION_ERROR =>
    { s with totalRequests := s.totalRequests + 1, errors := s.errors + 1 }
  | TradeStatus.INVALID_PARAMS =>
    { s with totalRequests := s.totalRequests + 1, errors := s.errors + 1 }

/-- Source `ResultTracker::getStats`: fold the bucket switch over the stored
results. -/
def getStats (st : TrackerState) : Stats :=
  st.results.foldl (fun s p => bucketAdd s p.2) ⟨0, 0, 0, 0, 0⟩

/-- Folding the bucket switch counts the list length into `totalRequests` and
the per-bucket filters into the four buckets. -/
theorem statsFold_counts (rs : List (String × TradeResult)) :
    ∀ s : Stats,
    (rs.foldl (fun s p => bucketAdd s p.2) s).totalRequests
        = s.totalRequests + rs.length ∧
    (rs.foldl (fun s p => bucketAdd s p.2) s).successful
        = s.successful +
          (rs.filter (fun p => p.2.status = TradeStatus.SUCCESS)).length ∧
    (rs.foldl (fun s p => bucketAdd s p.2) s).duplicates
        = s.duplicates +
          (rs.filter (fun p => p.2.status = TradeStatus.DUPLICATE)).length ∧
    (rs.foldl (fun s p => bucketAdd s p.2) s).rejected
        = s.rejected +
          (rs.filter (fun p => p.2.status = TradeStatus.REJECTED ∨
            p.2.status = TradeStatus.MARGIN_ERROR ∨
            p.2.status = TradeStatus.RETRY_EXHAUSTED)).length ∧
    (rs.foldl (fun s p => bucketAdd s p.2) s).errors
        = s.errors +
          (rs.filter (fun p => p.2.status = TradeStatus.CONNECTION_ERROR ∨
            p.2.status = TradeStatus.INVALID_PARAMS)).length := by
  induction rs with
  | nil => intro s; simp
  | cons p rest ih =>
    intro s
    simp only [List.foldl_cons, List.filter_cons]
    rcases ih (bucketAdd s p.2) with ⟨h1, h2, h3, h4, h5⟩
    rw [h1, h2, h3, h4, h5]
    cases hstat : p.2.status <;> simp [bucketAdd, hstat] <;> omega

/-- The bucket switch preserves "total equals the sum of the four buckets". -/
theorem statsFold_sum (rs : List (String × TradeResult)) :
    ∀ s : Stats,
    s.totalRequests = s.successful + s.rejected + s.errors + s.duplicates →
    (rs.foldl (fun s p => bucketAdd s p.2) s).totalRequests =
      (rs.foldl (fun s p => bucketAdd s p.2) s).successful +
      (rs.foldl (fun s p => bucketAdd s p.2) s).rejected +
      (rs.foldl (fun s p => bucketAdd s p.2) s).errors +
      (rs.foldl (fun s p => bucketAdd s p.2) s).duplicates := by
  induction rs with
  | nil => intro s h; simpa using h
  | cons p rest ih =>
    intro s h
    simp only [List.foldl_cons]
    apply ih
    cases hstat : p.2.status <;> simp [bucketAdd, hstat] <;> omega

/-- Membership in the keys of an overwriting insert. -/
theorem mem_keys_insertA {α : Type} (l : List (String × α)) (k : String) (v : α)
    (a : String) :
    a ∈ (insertA l k v).map Prod.fst ↔ a ∈ l.map Prod.fst ∨ a = k := by
  induction l with
  | nil => simp [insertA]
  | cons p rest ih =>
    cases p with
    | mk k' w =>
      simp only [insertA]
      by_cases h : k' = k
      · rw [if_pos h]
        subst h
        simp only [List.map_cons, List.mem_cons]
        tauto
      · rw [if_neg h]
        simp only [List.map_cons, List.mem_cons, ih]
        tauto

/-- An overwriting insert keeps the key list duplicate-free. -/
theorem nodup_keys_insertA {α : Type} (l : List (String × α)) (k : String) (v : α)
    (h : (l.map Prod.fst).Nodup) : ((insertA l k v).map Prod.fst).Nodup := by
  induction l with
  | nil => simp [insertA]
  | cons p rest ih =>
    cases p with
    | mk k' w =>
      simp only [List.map_cons, List.nodup_cons] at h
      by_cases hk : k' = k
      · subst hk
        simp only [insertA, if_true, eq_self_iff_true]
        simp only [List.map_cons, List.nodup_cons]
        exact h
      · simp only [insertA, if_neg hk, List.map_cons, List.nodup_cons]
        refine ⟨?_, ih h.2⟩
        rw [mem_keys_insertA]
        rintro (hmem | hmem)
        · exact h.1 hmem
        · exact hk hmem

/-- Every reachable tracker state has duplicate-free result keys. -/
theorem record_keys_nodup : ∀ (hist : List TradeResult) (st : TrackerState),
    (st.results.map Prod.fst).Nodup →
    (((hist.foldl record st).results.map Prod.fst)).Nodup := by
  intro hist
  induction hist with
  | nil => intro st h; simpa using h
  | cons r rest ih =>
    intro st h
    simp only [List.foldl_cons]
    exact ih (record st r) (nodup_keys_insertA st.results r.requestId r h)

/-- Claim C8: `getStats` classifies each stored result into exactly one bucket
(SUCCESS → successful, DUPLICATE → duplicates, REJECTED / MARGIN_ERROR /
RETRY_EXHAUSTED → rejected, CONNECTION_ERROR / INVALID_PARAMS → errors), and
`totalRequests` equals the sum of the four buckets, which equals the number of
stored results; reachable trackers have one entry per distinct requestId. -/
theorem getStats_partitions (st : TrackerState) :
    (getStats st).totalRequests =
      (getStats st).successful + (getStats st).rejected + (getStats st).errors +
        (getStats st).duplicates ∧
    (getStats st).totalRequests = st.results.length ∧
    (getStats st).successful =
      (st.results.filter (fun p => p.2.status = TradeStatus.SUCCESS)).length ∧
    (getStats st).duplicates =
      (st.results.filter (fun p => p.2.status = TradeStatus.DUPLICATE)).length ∧
    (getStats st).rejected =
      (st.results.filter (fun p => p.2.status = TradeStatus.REJECTED ∨
        p.2.status = TradeStatus.MARGIN_ERROR ∨
        p.2.status = TradeStatus.RETRY_EXHAUSTED)).length ∧
    (getStats st).errors =
      (st.results.filter (fun p => p.2.status = TradeStatus.CONNECTION_ERROR ∨
        p.2.status = TradeStatus.INVALID_PARAMS)).length ∧
    (∀ hist : List TradeResult,
      ((hist.foldl record emptyTracker).results.map Prod.fst).Nodup) := by
  rcases statsFold_counts st.results ⟨0, 0, 0, 0, 0⟩ with ⟨h1, h2, h3, h4, h5⟩
  refine ⟨statsFold_sum st.results ⟨0, 0, 0, 0, 0⟩ rfl, ?_, ?_, ?_, ?_, ?_,
    fun hist => record_keys_nodup hist emptyTracker (by simp [emptyTracker])⟩
  · simpa using h1
  · simpa using h2
  · simpa using h3
  · simpa using h4
  · simpa using h5

/-- Lookup of an overwriting insert at the written key. -/
theorem lookupA_insertA_self {α : Type} (l : List (String × α)) (k : String) (v : α) :
    lookupA (insertA l k v) k = some v := by
  induction l with
  | nil => simp [insertA, lookupA]
  | cons p rest ih =>
    cases p with
    | mk k' w =>
      by_cases h : k' = k
      · simp [insertA, h, lookupA]
      · simp [insertA, h, lookupA, ih]

/-- Lookup of an overwriting insert at a different key. -/
theorem lookupA_insertA_ne {α : Type} (l : List (String × α)) (k k' : String) (v : α)
    (h : k' ≠ k) : lookupA (insertA l k v) k' = lookupA l k' := by
  induction l with
  | nil => simp [insertA, lookupA, Ne.symm h]
  | cons p rest ih =>
    cases p with
    | mk k0 w =>
      by_cases h0 : k0 = k
      · subst h0
        simp [insertA, lookupA, Ne.symm h]
      · simp [insertA, h0, lookupA, ih]

/-- The secondary-index write appends the requestId to its client's list. -/
theorem lookupA_appendClient_self (l : List (String × List String)) (c rid : String) :
    lookupA (appendClient l c rid) c = some ((lookupA l c).getD [] ++ [rid]) := by
  induction l with
  | nil => simp [appendClient, lookupA]
  | cons p rest ih =>
    cases p with
    | mk c0 rids =>
      by_cases h : c0 = c
      · subst h
        simp [appendClient, lookupA]
      · simp [appendClient, h, lookupA, ih]

/-- The secondary-index write leaves other clients' lists unchanged. -/
theorem lookupA_appendClient_ne (l : List (String × List String)) (c c' rid : String)
    (h : c' ≠ c) : lookupA (appendClient l c rid) c' = lookupA l c' := by
  induction l with
  | nil => simp [appendClient, lookupA, Ne.symm h]
  | cons p rest ih =>
    cases p with
    | mk c0 rids =>
      by_cases h0 : c0 = c
      · subst h0
        simp [appendClient, lookupA, Ne.symm h]
      · simp [appendClient, h0, lookupA, ih]

/-- Effect of one `record` on one client's requestId list. -/
theorem clientList_record (st : TrackerState) (r : TradeResult) (c : String) :
    clientList (record st r) c =
      clientList st c ++ (if r.clientId = c then [r.requestId] else []) := by
  by_cases h : r.clientId = c
  · subst h
    simp [clientList, record, lookupA_appendClient_self]
  · simp [clientList, record, h,
      lookupA_appendClient_ne st.clientRequests r.clientId c r.requestId (Ne.symm h)]

/-- After a run of records, a client's requestId list is exactly the
requestIds of that client's records, in recording order. -/
theorem clientList_foldl (hist : List TradeResult) :
    ∀ (st : TrackerState) (c : String),
      clientList (hist.foldl record st) c =
        clientList st c ++
          (hist.filter (fun r => r.clientId = c)).map (fun r => r.requestId) := by
  induction hist with
  | nil => intro st c; simp
  | cons r rest ih =>
    intro st c
    simp only [List.foldl_cons, List.filter_cons]
    rw [ih (record st r) c, clientList_record]
    by_cases h : r.clientId = c
    · simp [h, List.append_assoc]
    · simp [h]

/-- Records whose requestIds differ from `rid` do not change `getByRequestId rid`. -/
theorem getByRequestId_foldl_ne (hist : List TradeResult) :
    ∀ (st : TrackerState) (rid : String),
      (∀ r ∈ hist, r.requestId ≠ rid) →
      getByRequestId (hist.foldl record st) rid = getByRequestId st rid := by
  induction hist with
  | nil => intro st rid _; rfl
  | cons r rest ih =>
    intro st rid h
    simp only [List.foldl_cons]
    rw [ih (record st r) rid (fun r' hr' => h r' (List.mem_cons_of_mem _ hr'))]
    exact lookupA_insertA_ne st.results r.requestId rid r
      (Ne.symm (h r (List.mem_cons_self _ _)))

/-- Claim C9: a recorded result `R` whose requestId is not overwritten later
is returned by `getByRequestId` and appears in `getByClientId R.clientId`,
whose underlying index lists each client's requestIds in recording order. -/
theorem tracker_round_trip (hist : List TradeResult) (R : TradeResult)
    (pre post : List TradeResult) (hsplit : hist = pre ++ R :: post)
    (hnolater : ∀ r ∈ post, r.requestId ≠ R.requestId) :
    getByRequestId (hist.foldl record emptyTracker) R.requestId = some R ∧
    R ∈ getByClientId (hist.foldl record emptyTracker) R.clientId ∧
    (∀ c, clientList (hist.foldl record emptyTracker) c =
      (hist.filter (fun r => r.clientId = c)).map (fun r => r.requestId)) := by
  have hchar : ∀ c, clientList (hist.foldl record emptyTracker) c =
      (hist.filter (fun r => r.clientId = c)).map (fun r => r.requestId) := by
    intro c
    rw [clientList_foldl hist emptyTracker c]
    simp [clientList, emptyTracker, lookupA]
  have hlook : getByRequestId (hist.foldl record emptyTracker) R.requestId = some R := by
    rw [hsplit, List.foldl_append]
    simp only [List.foldl_cons]
    rw [getByRequestId_foldl_ne post (record (pre.foldl record emptyTracker) R)
      R.requestId hnolater]
    exact lookupA_insertA_self _ _ _
  refine ⟨hlook, ?_, hchar⟩
  have hRmem : R ∈ hist := by
    rw [hsplit]
    simp
  have hmem : R.requestId ∈ clientList (hist.foldl record emptyTracker) R.clientId := by
    rw [hchar]
    refine List.mem_map_of_mem _ ?_
    rw [List.mem_filter]
    exact ⟨hRmem, by simp⟩
  exact List.mem_filterMap.mpr ⟨R.requestId, hmem, hlook⟩

/-- Concrete successful result of client C1, for witnesses. -/
def resA : TradeResult := ⟨"R", "C1", TradeStatus.SUCCESS, "1", 1, "", 0⟩

/-- Concrete duplicate result of client C1 with a different requestId, for
witnesses. -/
def resB : TradeResult := ⟨"R2", "C1", TradeStatus.DUPLICATE, "", 0, "dup", 0⟩

/-- Witness for claim C9 at a concrete two-record history. -/
theorem tracker_round_trip_witness :
    getByRequestId ([resA, resB].foldl record emptyTracker) resA.requestId = some resA ∧
    resA ∈ getByClientId ([resA, resB].foldl record emptyTracker) resA.clientId ∧
    (∀ c, clientList ([resA, resB].foldl record emptyTracker) c =
      ([resA, resB].filter (fun r => r.clientId = c)).map (fun r => r.requestId)) :=
  tracker_round_trip [resA, resB] resA [] [resB] rfl (by decide)

/-- Decidable check of the claimed tracker consistency invariant: every
requestId in any client's index is a key of `results` whose stored result's
clientId is that client. -/
def trackerConsistent (st : TrackerState) : Bool :=
  st.clientRequests.all fun p =>
    p.2.all fun rid =>
      ((lookupA st.results rid).map (fun r => r.clientId)) == some p.1

/-- Concrete result recording requestId "R" for client A, for the C7
counterexample. -/
def resConflictA : TradeResult := ⟨"R", "A", TradeStatus.SUCCESS, "1", 1, "", 0⟩

/-- Concrete result re-recording requestId "R" for client B, for the C7
counterexample. -/
def resConflictB : TradeResult := ⟨"R", "B", TradeStatus.SUCCESS, "2", 1, "", 0⟩

/-- Counterexample to claim C7: record requestId "R" for client A, then record
"R" again for client B. "R" stays in client A's index but the stored result's
clientId is now "B", so the claimed invariant fails on this overwrite. -/
theorem tracker_overwrite_breaks_consistency :
    trackerConsistent (record (record emptyTracker resConflictA) resConflictB) = false ∧
    "R" ∈ clientList (record (record emptyTracker resConflictA) resConflictB) "A" ∧
    (getByRequestId (record (record emptyTracker resConflictA) resConflictB) "R").map
      (fun r => r.clientId) = some "B" := by
  decide

/-- Every entry of an overwritten map is an old entry or the written pair. -/
theorem mem_insertA {α : Type} (l : List (String × α)) (k : String) (v : α) :
    ∀ q ∈ insertA l k v, q ∈ l ∨ q = (k, v) := by
  induction l with
  | nil =>
    intro q hq
    simp [insertA] at hq
    simp [hq]
  | cons p rest ih =>
    cases p with
    | mk k' w =>
      intro q hq
      simp only [insertA] at hq
      by_cases h : k' = k
      · rw [if_pos h] at hq
        rcases List.mem_cons.mp hq with h1 | h1
        · right
          rw [h1]
        · left
          exact List.mem_cons_of_mem _ h1
      · rw [if_neg h] at hq
        rcases List.mem_cons.mp hq with h1 | h1
        · left
          rw [h1]
          exact List.mem_cons_self _ _
        · rcases ih q h1 with h2 | h2
          · left
            exact List.mem_cons_of_mem _ h2
          · right
            exact h2

/-- Provenance of secondary-index entries: each listed requestId was already
listed for the same client, or is the newly appended one. -/
theorem mem_appendClient (l : List (String × List String)) (c rid : String) :
    ∀ p ∈ appendClient l c rid, ∀ x ∈ p.2,
      (∃ p' ∈ l, p'.1 = p.1 ∧ x ∈ p'.2) ∨ (p.1 = c ∧ x = rid) := by
  induction l with
  | nil =>
    intro p hp x hx
    simp [appendClient] at hp
    subst hp
    simp at hx
    exact Or.inr ⟨rfl, hx⟩
  | cons q rest ih =>
    cases q with
    | mk c0 rids =>
      intro p hp x hx
      simp only [appendClient] at hp
      by_cases h : c0 = c
      · rw [if_pos h] at hp
        rcases List.mem_cons.mp hp with h1 | h1
        · subst h1
          rcases List.mem_append.mp hx with hx1 | hx1
          · exact Or.inl ⟨(c0, rids), List.mem_cons_self _ _, rfl, hx1⟩
          · simp only [List.mem_singleton] at hx1
            exact Or.inr ⟨h, hx1⟩
        · exact Or.inl ⟨p, List.mem_cons_of_mem _ h1, rfl, hx⟩
      · rw [if_neg h] at hp
        rcases List.mem_cons.mp hp with h1 | h1
        · subst h1
          exact Or.inl ⟨(c0, rids), List.mem_cons_self _ _, rfl, hx⟩
        · rcases ih p h1 x hx with ⟨p', hp', he, hx'⟩ | h2
          · exact Or.inl ⟨p', List.mem_cons_of_mem _ hp', he, hx'⟩
          · exact Or.inr h2

/-- A successful lookup names an entry of the association list. -/
theorem lookupA_mem {α : Type} (l : List (String × α)) (k : String) (v : α)
    (h : lookupA l k = some v) : (k, v) ∈ l := by
  induction l with
  | nil => simp [lookupA] at h
  | cons p rest ih =>
    cases p with
    | mk k' w =>
      simp only [lookupA] at h
      by_cases h0 : k' = k
      · rw [if_pos h0] at h
        injection h with h
        subst h0
        subst h
        exact List.mem_cons_self _ _
      · rw [if_neg h0] at h
        exact List.mem_cons_of_mem _ (ih h)

/-- An overwriting insert never loses a present key. -/
theorem lookupA_isSome_insertA {α : Type} (l : List (String × α)) (k k' : String)
    (v : α) (h : (lookupA l k').isSome) : (lookupA (insertA l k v) k').isSome := by
  by_cases he : k' = k
  · subst he
    rw [lookupA_insertA_self]
    rfl
  · rw [lookupA_insertA_ne l k k' v he]
    exact h

/-- Provenance invariant of tracker states built from the results of `hist`:
every secondary-index entry names a recorded result of its client and a
present key, and every stored result is one of `hist` keyed by its requestId. -/
def trackerFrom (st : TrackerState) (hist : List TradeResult) : Prop :=
  (∀ p ∈ st.clientRequests, ∀ rid ∈ p.2,
    (∃ r ∈ hist, r.requestId = rid ∧ r.clientId = p.1) ∧
    (lookupA st.results rid).isSome) ∧
  (∀ q ∈ st.results, q.2 ∈ hist ∧ q.2.requestId = q.1)

/-- One `record` of a result of `hist` preserves the provenance invariant. -/
theorem trackerFrom_record (st : TrackerState) (hist : List TradeResult)
    (r : TradeResult) (hr : r ∈ hist) (h : trackerFrom st hist) :
    trackerFrom (record st r) hist := by
  obtain ⟨hclient, hres⟩ := h
  constructor
  · intro p hp x hx
    rcases mem_appendClient st.clientRequests r.clientId r.requestId p hp x hx with
      ⟨p', hp', he, hx'⟩ | ⟨he, hx'⟩
    · obtain ⟨⟨r', hr', h1, h2⟩, hsome⟩ := hclient p' hp' x hx'
      exact ⟨⟨r', hr', h1, by rw [← he]; exact h2⟩,
        lookupA_isSome_insertA st.results r.requestId x r hsome⟩
    · refine ⟨⟨r, hr, hx'.symm, he.symm⟩, ?_⟩
      show (lookupA (insertA st.results r.requestId r) x).isSome = true
      rw [hx', lookupA_insertA_self]
      rfl
  · intro q hq
    rcases mem_insertA st.results r.requestId r q hq with h1 | h1
    · exact hres q h1
    · rw [h1]
      exact ⟨hr, rfl⟩

/-- Folding records of results of `hist` preserves the provenance invariant. -/
theorem trackerFrom_foldl (hist : List TradeResult) :
    ∀ (todo : List TradeResult) (st : TrackerState),
      (∀ r ∈ todo, r ∈ hist) → trackerFrom st hist →
      trackerFrom (todo.foldl record st) hist := by
  intro todo
  induction todo with
  | nil =>
    intro st _ h
    simpa using h
  | cons r rest ih =>
    intro st hsub h
    simp only [List.foldl_cons]
    exact ih (record st r) (fun x hx => hsub x (List.mem_cons_of_mem _ hx))
      (trackerFrom_record st hist r (hsub r (List.mem_cons_self _ _)) h)

/-- Claim C7 amended: for every sequence of record calls — overwrites with a
different clientId included — every requestId in any client's index is a key
of `results`; and when no two record calls of the sequence reuse a requestId
with different clientIds (an overwrite with a different clientId breaks it,
see the counterexample), the stored result's clientId equals the indexing
client. -/
theorem tracker_indices_consistent (hist : List TradeResult) :
    (∀ p ∈ (hist.foldl record emptyTracker).clientRequests, ∀ rid ∈ p.2,
      (getByRequestId (hist.foldl record emptyTracker) rid).isSome) ∧
    ((∀ r1 ∈ hist, ∀ r2 ∈ hist, r1.requestId = r2.requestId →
        r1.clientId = r2.clientId) →
      trackerConsistent (hist.foldl record emptyTracker) = true) := by
  have hfrom : trackerFrom (hist.foldl record emptyTracker) hist := by
    refine trackerFrom_foldl hist hist emptyTracker (fun r hr => hr) ?_
    constructor
    · intro p hp
      simp [emptyTracker] at hp
    · intro q hq
      simp [emptyTracker] at hq
  obtain ⟨hclient, hres⟩ := hfrom
  constructor
  · intro p hp rid hrid
    exact (hclient p hp rid hrid).2
  · intro h
    simp only [trackerConsistent, List.all_eq_true, beq_iff_eq]
    intro p hp x hx
    obtain ⟨⟨r1, hr1, hreq1, hcli1⟩, hsome⟩ := hclient p hp x hx
    obtain ⟨v, hv⟩ := Option.isSome_iff_exists.mp hsome
    have hvmem := hres (x, v) (lookupA_mem _ _ _ hv)
    have hcv : v.clientId = p.1 := by
      have := h v hvmem.1 r1 hr1 (by rw [hvmem.2, hreq1])
      rw [this, hcli1]
    rw [hv]
    simp [hcv]

/-! ## Mock broker (`MockMTAPI.cpp`)

`MockMTAPI::executeTrade` declares a local `TradeResult result;` whose
`double executionPrice` member has no initializer and is assigned only on the
SUCCESS path: every failure path returns the field's indeterminate initial
value. The model passes that indeterminate value in explicitly as
`uninitPrice`. The RNG draws (`shouldFail()`, the slippage) are parameters;
the mutable account and ticket counter are explicit state. -/

/-- Mutable state of `MockMTAPI` touched by `executeTrade`: the account's free
margin and equity, and the ticket counter. -/
structure MockState where
  freeMargin : Rat
  equity : Rat
  ticketCounter : Nat
deriving DecidableEq, Repr

/-- Source `MockMTAPI::executeTrade`: connection-failure draw, symbol lookup,
trade permission, volume range, volume-step alignment (tolerance 1e-6),
margin check with reservation, then fill. `uninitPrice` stands for the
indeterminate value of the uninitialized `executionPrice` member, which the
source assigns only on the SUCCESS path. -/
def mockExecuteTrade (symbols : String → Option SymbolInfo)
    (shouldFail : Bool) (slippage : Rat) (uninitPrice : Rat)
    (st : MockState) (req : TradeRequest) : TradeResult × MockState :=
  if shouldFail then
    ({ requestId := req.requestId, clientId := req.clientId,
       status := TradeStatus.CONNECTION_ERROR, mtTicketId := "",
       executionPrice := uninitPrice,
       errorMessage := "MT5 server connection timeout during DealerSend()",
       retryCount := 0 }, st)
  else
    match symbols req.symbol with
    | none =>
      ({ requestId := req.requestId, clientId := req.clientId,
         status := TradeStatus.INVALID_PARAMS, mtTicketId := "",
         executionPrice := uninitPrice,
         errorMessage := "Symbol '" ++ req.symbol ++ "' not found (SymbolGet failed)",
         retryCount := 0 }, st)
    | some info =>
      if !info.tradeAllowed then
        ({ requestId := req.requestId, clientId := req.clientId,
           status := TradeStatus.REJECTED, mtTicketId := "",
           executionPrice := uninitPrice,
           errorMessage := "Trading disabled for symbol '" ++ req.symbol ++ "'",
           retryCount := 0 }, st)
      else if req.volume < info.minVolume ∨ info.maxVolume < req.volume then
        ({ requestId := req.requestId, clientId := req.clientId,
           status := TradeStatus.INVALID_PARAMS, mtTicketId := "",
           executionPrice := uninitPrice,
           errorMessage := "Volume " ++ toString req.volume ++
             " outside allowed range [" ++ toString info.minVolume ++ ", " ++
             toString info.maxVolume ++ "]",
           retryCount := 0 }, st)
      else if 1 / 1000000 <
          |req.volume / info.volumeStep - (round (req.volume / info.volumeStep) : Rat)| then
        ({ requestId := req.requestId, clientId := req.clientId,
           status := TradeStatus.INVALID_PARAMS, mtTicketId := "",
           executionPrice := uninitPrice,
           errorMessage := "Volume " ++ toString req.volume ++
             " not aligned to step " ++ toString info.volumeStep,
           retryCount := 0 }, st)
      else if st.freeMargin < req.volume * 1000 then
        ({ requestId := req.requestId, clientId := req.clientId,
           status := TradeStatus.MARGIN_ERROR, mtTicketId := "",
           executionPrice := uninitPrice,
           errorMessage := "Insufficient margin. Required: $" ++
             toString (req.volume * 1000) ++ ", Available: $" ++
             toString st.freeMargin,
           retryCount := 0 }, st)
      else
        ({ requestId := req.requestId, clientId := req.clientId,
           status := TradeStatus.SUCCESS,
           mtTicketId := toString st.ticketCounter,
           executionPrice :=
             (if req.tradeType = TradeType.BUY then info.ask else info.bid) + slippage,
           errorMessage := "", retryCount := 0 },
         { freeMargin := st.freeMargin - req.volume * 1000,
           equity := st.equity - req.volume * 1000 * (1 / 1000),
           ticketCounter := st.ticketCounter + 1 })

/-- Claim C5 at a failing input: when the mock draws a connection failure, the
result is non-SUCCESS while `executionPrice` keeps whatever indeterminate
value the uninitialized `double` member held (here seeded as 1), not 0.
`TradeResult.h` documents the field as "0.0 on failure", but no failure path
of `MockMTAPI::executeTrade` assigns it. -/
theorem mockExecuteTrade_uninit_price_on_failure :
    (mockExecuteTrade apiNone true 0 1 ⟨100000, 100000, 1⟩ reqA).1.status =
      TradeStatus.CONNECTION_ERROR ∧
    (mockExecuteTrade apiNone true 0 1 ⟨100000, 100000, 1⟩ reqA).1.executionPrice = 1 ∧
    (mockExecuteTrade apiNone true 0 1 ⟨100000, 100000, 1⟩ reqA).1.executionPrice ≠ 0 := by
  refine ⟨rfl, rfl, by decide⟩
